import Mathlib

/- Shallow embedding of the Eudia Legal Summarizer backend (src/main.py):
   the regex-based metadata extractors (extract_future_dates,
   extract_case_numbers, generate_case_timeline), the structured-summary
   JSON isolation of extract_structured_summary, and the per-batch loop
   of upload_and_summarize.  Python regular expressions are modelled by a
   backtracking matcher with Python re priority semantics (leftmost match
   start, alternation tries the left branch first, quantifiers are
   greedy); strptime is modelled after CPython _strptime for the format
   directives the source uses.  The regex classes \w and \s and the str
   helpers are modelled on their ASCII subsets. -/

/-- Python regex \s on its ASCII subset: space, tab, newline, carriage
return, vertical tab, form feed. -/
def isWs (c : Char) : Bool :=
  c = ' ' || c = '\t' || c = '\n' || c = '\x0d' || c = '\x0b' || c = '\x0c'

/-- Python regex \w on its ASCII subset: letters, digits, underscore. -/
def isWordCh (c : Char) : Bool :=
  c.isAlphanum || c = '_'

/-- Python str.strip of a character list: drop leading and trailing
whitespace. -/
def pyStrip (l : List Char) : List Char :=
  ((l.dropWhile isWs).reverse.dropWhile isWs).reverse

instance {ε : Type u} {α : Type v} [DecidableEq ε] [DecidableEq α] : DecidableEq (Except ε α) :=
  fun a b =>
    match a, b with
    | .ok x, .ok y =>
      if h : x = y then isTrue (by rw [h]) else isFalse (fun hh => h (Except.ok.inj hh))
    | .error x, .error y =>
      if h : x = y then isTrue (by rw [h]) else isFalse (fun hh => h (Except.error.inj hh))
    | .ok _, .error _ => isFalse (fun hh => Except.noConfusion hh)
    | .error _, .ok _ => isFalse (fun hh => Except.noConfusion hh)

/-- Regular-expression abstract syntax, covering the constructs used by
the patterns in src/main.py.  Quantifiers in those patterns are applied
only to single-character classes (rep) or to alternations of literals
(opt), which keeps the matcher simple.  lit is a case-sensitive literal
character; litI compares case-insensitively (the source compiles every
date / case-number pattern with re.IGNORECASE). -/
inductive Re where
  | eps : Re
  | lit : Char → Re
  | litI : Char → Re
  | cls : (Char → Bool) → Re
  | seq : Re → Re → Re
  | alt : Re → Re → Re
  | opt : Re → Re
  | rep : (Char → Bool) → Nat → Option Nat → Re
  | wordB : Re

/-- Wordness of the character on one side of a position; off the end of
the string counts as non-word (Python \b semantics). -/
def wOf : Option Char → Bool
  | none => false
  | some c => isWordCh c

/-- Greedy matching of a character-class repetition with bounds lo..hi
(hi = none means unbounded), in continuation style.  Tries the longest
repetition first and backtracks downwards, exactly the behaviour of a
greedy Python quantifier.  The continuation receives the remaining input
and the character just before it. -/
def repM (p : Char → Bool) (k : List Char → Option Char → Option (List Char × Option Char)) :
    List Char → Nat → Option Nat → Option Char → Option (List Char × Option Char)
  | [], lo, _, prev => if lo = 0 then k [] prev else none
  | c :: rest, lo, hi, prev =>
    let deeper : Option (List Char × Option Char) :=
      if hi ≠ some 0 ∧ p c = true then
        repM p k rest (lo - 1) (match hi with | some (n+1) => some n | some 0 => some 0 | none => none) (some c)
      else none
    match deeper with
    | some r => some r
    | none => if lo = 0 then k (c :: rest) prev else none

/-- Backtracking matcher in continuation style.  mtch r s prev k tries to
match r at the start of s (prev is the character just before s, used by
word boundaries) and runs k on every candidate suffix, in Python re
priority order: left alternative first, greedy quantifiers longest
first.  Returns the first success. -/
def Re.mtch : Re → List Char → Option Char → (List Char → Option Char → Option (List Char × Option Char)) → Option (List Char × Option Char)
  | .eps, s, prev, k => k s prev
  | .lit c, s, _prev, k =>
    match s with
    | [] => none
    | d :: rest => if d = c then k rest (some d) else none
  | .litI c, s, _prev, k =>
    match s with
    | [] => none
    | d :: rest => if d.toLower = c.toLower then k rest (some d) else none
  | .cls p, s, _prev, k =>
    match s with
    | [] => none
    | d :: rest => if p d then k rest (some d) else none
  | .seq a b, s, prev, k => a.mtch s prev (fun s2 p2 => b.mtch s2 p2 k)
  | .alt a b, s, prev, k =>
    match a.mtch s prev k with
    | some r => some r
    | none => b.mtch s prev k
  | .opt a, s, prev, k =>
    match a.mtch s prev k with
    | some r => some r
    | none => k s prev
  | .rep p lo hi, s, prev, k => repM p k s lo hi prev
  | .wordB, s, prev, k => if wOf prev ≠ wOf s.head? then k s prev else none

/-- Try to match r anchored at the start of s; on success return the
matched span together with the remaining suffix and the character
preceding it. -/
def reMatchAt (r : Re) (s : List Char) (prev : Option Char) : Option (List Char × List Char × Option Char) :=
  match r.mtch s prev (fun rest pr => some (rest, pr)) with
  | none => none
  | some (rest, pr) => some (s.take (s.length - rest.length), rest, pr)

/-- All non-overlapping matches, scanning left to right (re.finditer).
The fuel argument bounds the number of scan steps; every step consumes
at least one input character, so fuel = length + 1 is always enough. -/
def reFindGo (r : Re) : Nat → List Char → Option Char → List (List Char)
  | 0, _, _ => []
  | _ + 1, [], _ => []
  | fuel + 1, c :: rest, prev =>
    match reMatchAt r (c :: rest) prev with
    | some (m, after, pr) =>
      if m.length = 0 then reFindGo r fuel rest (some c)
      else m :: reFindGo r fuel after pr
    | none => reFindGo r fuel rest (some c)

/-- re.finditer / re.findall for a pattern with no capturing groups:
the list of matched substrings, left to right, non-overlapping. -/
def reFindAll (r : Re) (s : List Char) : List (List Char) :=
  reFindGo r (s.length + 1) s none

/-- re.search: the first match, scanning left to right. -/
def reSearchGo (r : Re) : Nat → List Char → Option Char → Option (List Char)
  | 0, _, _ => none
  | _ + 1, [], prev =>
    match reMatchAt r [] prev with
    | some (m, _, _) => some m
    | none => none
  | fuel + 1, c :: rest, prev =>
    match reMatchAt r (c :: rest) prev with
    | some (m, _, _) => some m
    | none => reSearchGo r fuel rest (some c)

/-- re.search over a character list. -/
def reSearch (r : Re) (s : List Char) : Option (List Char) :=
  reSearchGo r (s.length + 1) s none

/-- re.sub with empty replacement: delete every non-overlapping match,
scanning left to right.  Zero-length matches cannot occur for the
patterns of the source (every alternative consumes a character); they
are skipped defensively. -/
def reDelGo (r : Re) : Nat → List Char → Option Char → List Char
  | 0, s, _ => s
  | _ + 1, [], _ => []
  | fuel + 1, c :: rest, prev =>
    match reMatchAt r (c :: rest) prev with
    | some (m, after, pr) =>
      if m.length = 0 then c :: reDelGo r fuel rest (some c)
      else reDelGo r fuel after pr
    | none => c :: reDelGo r fuel rest (some c)

/-- Delete all matches of r in s (re.sub(pattern, empty, s)). -/
def reDelAll (r : Re) (s : List Char) : List Char :=
  reDelGo r (s.length + 1) s none

/-- Sequence of several regexes. -/
def reSeq (l : List Re) : Re :=
  match l with
  | [] => .eps
  | [r] => r
  | r :: rest => .seq r (reSeq rest)

/-- Alternation of several regexes, left branch highest priority. -/
def reAlt (l : List Re) : Re :=
  match l with
  | [] => .cls (fun _ => false)
  | [r] => r
  | r :: rest => .alt r (reAlt rest)

/-- Case-insensitive literal string. -/
def strI (s : String) : Re :=
  reSeq (s.toList.map Re.litI)

/-- The twelve English month names, in the order they appear in the
source regexes. -/
def monthNames : List String :=
  ["January", "February", "March", "April", "May", "June",
   "July", "August", "September", "October", "November", "December"]

/-- Regex alternation (?:January|February|...|December), matched
case-insensitively as in the source (re.IGNORECASE). -/
def monthRe : Re := reAlt (monthNames.map strI)

/-- Character class [\s,] from the first miner alternative. -/
def wsCommaCls : Re := .cls (fun c => isWs c || c = ',')

/-- Character class [/.-] separating numeric date components. -/
def sepCls : Re := .cls (fun c => c = '/' || c = '.' || c = '-')

/-- Ordinal suffix alternation (?:st|nd|rd|th), case-insensitive under
re.IGNORECASE. -/
def ordSufRe : Re := reAlt [strI "st", strI "nd", strI "rd", strI "th"]

/-- date_pattern of extract_future_dates (src/main.py lines 171-177):
\b(?:\d{1,2}\s*(?:st|nd|rd|th)?\s*MONTH[\s,]*\d{4}
  |MONTH\s*\d{1,2},?\s*\d{4}
  |MONTH\s+\d{4}
  |\d{4}-\d{2}-\d{2}
  |\d{1,2}[/.-]\d{1,2}[/.-]\d{2,4})\b  with re.IGNORECASE. -/
def minerDateRe : Re :=
  reSeq [.wordB,
    reAlt
      [reSeq [.rep Char.isDigit 1 (some 2), .rep isWs 0 none, .opt ordSufRe,
              .rep isWs 0 none, monthRe, .rep (fun c => isWs c || c = ',') 0 none,
              .rep Char.isDigit 4 (some 4)],
       reSeq [monthRe, .rep isWs 0 none, .rep Char.isDigit 1 (some 2),
              .opt (.lit ','), .rep isWs 0 none, .rep Char.isDigit 4 (some 4)],
       reSeq [monthRe, .rep isWs 1 none, .rep Char.isDigit 4 (some 4)],
       reSeq [.rep Char.isDigit 4 (some 4), .lit '-', .rep Char.isDigit 2 (some 2),
              .lit '-', .rep Char.isDigit 2 (some 2)],
       reSeq [.rep Char.isDigit 1 (some 2), sepCls, .rep Char.isDigit 1 (some 2),
              sepCls, .rep Char.isDigit 2 (some 4)]],
    .wordB]

/-- date_pattern of generate_case_timeline (src/main.py lines 238-243):
\b(?:\d{1,2}\s*MONTH[,]?\s*\d{4}
  |MONTH\s*\d{1,2},?\s*\d{4}
  |MONTH\s*\d{4}
  |\d{4}-\d{2}-\d{2})\b  with re.IGNORECASE. -/
def timelineDateRe : Re :=
  reSeq [.wordB,
    reAlt
      [reSeq [.rep Char.isDigit 1 (some 2), .rep isWs 0 none, monthRe,
              .opt (.lit ','), .rep isWs 0 none, .rep Char.isDigit 4 (some 4)],
       reSeq [monthRe, .rep isWs 0 none, .rep Char.isDigit 1 (some 2),
              .opt (.lit ','), .rep isWs 0 none, .rep Char.isDigit 4 (some 4)],
       reSeq [monthRe, .rep isWs 0 none, .rep Char.isDigit 4 (some 4)],
       reSeq [.rep Char.isDigit 4 (some 4), .lit '-', .rep Char.isDigit 2 (some 2),
              .lit '-', .rep Char.isDigit 2 (some 2)]],
    .wordB]

/-- Case-number pattern of extract_case_numbers (src/main.py line 220):
\b(?:[A-Z.\(\) ]+)?No\.?\s*\d+[\/\-]?\d{4}\b  with re.IGNORECASE, so the
letter class also accepts lowercase letters. -/
def caseNumRe : Re :=
  reSeq [.wordB,
    .opt (.rep (fun c => c.isAlpha || c = '.' || c = '(' || c = ')' || c = ' ') 1 none),
    strI "No", .opt (.lit '.'), .rep isWs 0 none,
    .rep Char.isDigit 1 none,
    .opt (.cls (fun c => c = '/' || c = '-')), .rep Char.isDigit 4 (some 4), .wordB]


/-- Calendar date as held by a Python datetime produced by strptime
(time-of-day is always midnight for the formats the source uses). -/
@[ext]
structure Date where
  year : Nat
  month : Nat
  day : Nat
deriving DecidableEq, Repr

/-- A Python datetime instant: a calendar date plus an abstract
time-of-day, in arbitrary units (0 = midnight); comparison is
lexicographic, as for datetime objects. -/
@[ext]
structure DateTime where
  date : Date
  time : Nat
deriving DecidableEq, Repr

/-- Strict order on calendar dates (lexicographic year, month, day),
the order Python datetime comparison induces on midnight values. -/
def dateLt (a b : Date) : Prop :=
  a.year < b.year ∨ (a.year = b.year ∧
    (a.month < b.month ∨ (a.month = b.month ∧ a.day < b.day)))

instance (a b : Date) : Decidable (dateLt a b) := by
  unfold dateLt; infer_instance

/-- Strict order on datetime instants (date first, then time). -/
def dtLt (a b : DateTime) : Prop :=
  dateLt a.date b.date ∨ (a.date = b.date ∧ a.time < b.time)

instance (a b : DateTime) : Decidable (dtLt a b) := by
  unfold dtLt; infer_instance

/-- The midnight instant of a date: what strptime returns. -/
def midnight (d : Date) : DateTime := ⟨d, 0⟩

/-- Gregorian leap-year rule, as in the datetime module. -/
def isLeap (y : Nat) : Bool :=
  (y % 4 = 0 && y % 100 ≠ 0) || y % 400 = 0

/-- Number of days in a month, as validated by the datetime
constructor. -/
def daysInMonth (y m : Nat) : Nat :=
  match m with
  | 2 => if isLeap y then 29 else 28
  | 4 => 30
  | 6 => 30
  | 9 => 30
  | 11 => 30
  | _ => 31

/-- Numeric value of an ASCII digit character. -/
def dval (c : Char) : Nat := c.toNat - 48

/-- Format directives appearing in the strptime format strings of the
source: %d, %m, %B, %Y, %y, a whitespace run, and a literal
character. -/
inductive FTok where
  | dd : FTok
  | mm : FTok
  | bb : FTok
  | yyyy : FTok
  | yy : FTok
  | ws : FTok
  | litc : Char → FTok

/-- CPython _strptime directive %d, compiled to the regex
3[01]|[12]\d|0[1-9]|[1-9]: a two-digit value 01..31 (leading zero
required below 10), falling back to one digit 1..9.  A later failure
can never be repaired by taking one digit instead of two, because every
following format token rejects a digit, so the greedy choice is
deterministic here. -/
def parse_d : List Char → Option (Nat × List Char)
  | c1 :: c2 :: rest =>
    if c1.isDigit && c2.isDigit then
      let n := dval c1 * 10 + dval c2
      if 1 ≤ n ∧ n ≤ 31 then some (n, rest)
      else if 1 ≤ dval c1 then some (dval c1, c2 :: rest) else none
    else if c1.isDigit && 1 ≤ dval c1 then some (dval c1, c2 :: rest)
    else none
  | [c1] => if c1.isDigit && 1 ≤ dval c1 then some (dval c1, []) else none
  | [] => none

/-- CPython _strptime directive %m, regex 1[0-2]|0[1-9]|[1-9]. -/
def parse_m : List Char → Option (Nat × List Char)
  | c1 :: c2 :: rest =>
    if c1.isDigit && c2.isDigit then
      let n := dval c1 * 10 + dval c2
      if 1 ≤ n ∧ n ≤ 12 then some (n, rest)
      else if 1 ≤ dval c1 then some (dval c1, c2 :: rest) else none
    else if c1.isDigit && 1 ≤ dval c1 then some (dval c1, c2 :: rest)
    else none
  | [c1] => if c1.isDigit && 1 ≤ dval c1 then some (dval c1, []) else none
  | [] => none

/-- CPython _strptime directive %Y: exactly four digits. -/
def parse_Y : List Char → Option (Nat × List Char)
  | c1 :: c2 :: c3 :: c4 :: rest =>
    if c1.isDigit && c2.isDigit && c3.isDigit && c4.isDigit then
      some (((dval c1 * 10 + dval c2) * 10 + dval c3) * 10 + dval c4, rest)
    else none
  | _ => none

/-- CPython _strptime directive %y: two digits, mapped into 1969..2068
(values below 69 get century 2000, the rest 1900). -/
def parse_y : List Char → Option (Nat × List Char)
  | c1 :: c2 :: rest =>
    if c1.isDigit && c2.isDigit then
      let n := dval c1 * 10 + dval c2
      some (if n < 69 then 2000 + n else 1900 + n, rest)
    else none
  | _ => none

/-- Case-insensitive prefix removal, for month-name matching. -/
def stripPrefI : List Char → List Char → Option (List Char)
  | [], s => some s
  | _ :: _, [] => none
  | p :: ps, c :: cs => if c.toLower = p.toLower then stripPrefI ps cs else none

/-- Month names with their month numbers, in source order. -/
def monthNumbered : List (Nat × String) :=
  [(1, "January"), (2, "February"), (3, "March"), (4, "April"),
   (5, "May"), (6, "June"), (7, "July"), (8, "August"),
   (9, "September"), (10, "October"), (11, "November"), (12, "December")]

/-- CPython _strptime directive %B: one of the full month names,
case-insensitively.  No full month name is a prefix of another, so
trying them in any fixed order is deterministic. -/
def parse_B_go : List (Nat × String) → List Char → Option (Nat × List Char)
  | [], _ => none
  | (i, nm) :: rest, s =>
    match stripPrefI nm.toList s with
    | some s2 => some (i, s2)
    | none => parse_B_go rest s

/-- Month-name directive %B. -/
def parse_B (s : List Char) : Option (Nat × List Char) :=
  parse_B_go monthNumbered s

/-- A whitespace run in a strptime format: CPython compiles it to \s+.
The token after a run is never a whitespace matcher, so the maximal
munch is deterministic. -/
def parse_wsRun : List Char → Option (List Char)
  | c :: rest => if isWs c then some (rest.dropWhile isWs) else none
  | [] => none

/-- Run a strptime format over the input, accumulating the (year,
month, day) fields seen so far; _strptime demands that the whole input
is consumed. -/
def runFmt : List FTok → List Char → Option Nat × Option Nat × Option Nat → Option (Option Nat × Option Nat × Option Nat)
  | [], s, acc => if s = [] then some acc else none
  | t :: ts, s, (y, m, d) =>
    match t with
    | .dd => match parse_d s with
      | some (v, s2) => runFmt ts s2 (y, m, some v)
      | none => none
    | .mm => match parse_m s with
      | some (v, s2) => runFmt ts s2 (y, some v, d)
      | none => none
    | .bb => match parse_B s with
      | some (v, s2) => runFmt ts s2 (y, some v, d)
      | none => none
    | .yyyy => match parse_Y s with
      | some (v, s2) => runFmt ts s2 (some v, m, d)
      | none => none
    | .yy => match parse_y s with
      | some (v, s2) => runFmt ts s2 (some v, m, d)
      | none => none
    | .ws => match parse_wsRun s with
      | some s2 => runFmt ts s2 (y, m, d)
      | none => none
    | .litc c => match s with
      | c2 :: s2 => if c2 = c then runFmt ts s2 (y, m, d) else none
      | [] => none

/-- datetime.strptime for one format: parse, fill defaults (year 1900,
month 1, day 1), then the datetime constructor validation (MINYEAR 1,
MAXYEAR 9999, month 1..12, day within the month).  A validation
failure raises ValueError in Python; here it yields none, which the
callers treat identically (they catch the exception and move on). -/
def strptime (fmt : List FTok) (s : List Char) : Option Date :=
  match runFmt fmt s (none, none, none) with
  | none => none
  | some (y?, m?, d?) =>
    let y := y?.getD 1900
    let m := m?.getD 1
    let d := d?.getD 1
    if 1 ≤ y ∧ y ≤ 9999 ∧ 1 ≤ m ∧ m ≤ 12 ∧ 1 ≤ d ∧ d ≤ daysInMonth y m then
      some ⟨y, m, d⟩
    else none

/-- Format "%d %B %Y". -/
def fmt_d_B_Y : List FTok := [.dd, .ws, .bb, .ws, .yyyy]

/-- Format "%B %d, %Y".  Note the comma is a literal: an input without
a comma at that position fails this format. -/
def fmt_B_d_c_Y : List FTok := [.bb, .ws, .dd, .litc ',', .ws, .yyyy]

/-- Format "%B %d %Y" (timeline list only). -/
def fmt_B_d_Y : List FTok := [.bb, .ws, .dd, .ws, .yyyy]

/-- Format "%B %Y". -/
def fmt_B_Y : List FTok := [.bb, .ws, .yyyy]

/-- Format "%Y-%m-%d". -/
def fmt_iso : List FTok := [.yyyy, .litc '-', .mm, .litc '-', .dd]

/-- Format "%d<sep>%m<sep>%Y". -/
def fmt_dmY (sep : Char) : List FTok := [.dd, .litc sep, .mm, .litc sep, .yyyy]

/-- Format "%d<sep>%m<sep>%y". -/
def fmt_dmy (sep : Char) : List FTok := [.dd, .litc sep, .mm, .litc sep, .yy]

/-- formats_to_try of extract_future_dates (src/main.py lines 188-192),
in source order. -/
def minerFormats : List (List FTok) :=
  [fmt_d_B_Y, fmt_B_d_c_Y, fmt_B_Y, fmt_iso,
   fmt_dmY '/', fmt_dmY '-', fmt_dmY '.',
   fmt_dmy '/', fmt_dmy '-', fmt_dmy '.']

/-- Format list of generate_case_timeline (src/main.py line 259), in
source order. -/
def timelineFormats : List (List FTok) :=
  [fmt_d_B_Y, fmt_B_d_Y, fmt_B_Y, fmt_iso]

/-- Try formats in order; first success wins (the for/try/break loop of
the source). -/
def tryFormats : List (List FTok) → List Char → Option Date
  | [], _ => none
  | f :: fs, s =>
    match strptime f s with
    | some d => some d
    | none => tryFormats fs s

/-- ASCII digit character for a value below ten. -/
def digitCh : Nat → Char
  | 0 => '0'
  | 1 => '1'
  | 2 => '2'
  | 3 => '3'
  | 4 => '4'
  | 5 => '5'
  | 6 => '6'
  | 7 => '7'
  | 8 => '8'
  | _ => '9'

/-- Two-digit zero-padded rendering (strftime %d). -/
def pad2 (n : Nat) : List Char := [digitCh (n / 10 % 10), digitCh (n % 10)]

/-- Four-digit zero-padded rendering (strftime %Y). -/
def pad4 (n : Nat) : List Char :=
  [digitCh (n / 1000 % 10), digitCh (n / 100 % 10), digitCh (n / 10 % 10), digitCh (n % 10)]

/-- Month name for strftime %B (months are validated to 1..12). -/
def monthName (m : Nat) : String :=
  match m with
  | 1 => "January"
  | 2 => "February"
  | 3 => "March"
  | 4 => "April"
  | 5 => "May"
  | 6 => "June"
  | 7 => "July"
  | 8 => "August"
  | 9 => "September"
  | 10 => "October"
  | 11 => "November"
  | _ => "December"

/-- strftime("%d %B %Y") of a parsed date. -/
def strftime_d_B_Y (d : Date) : String :=
  ⟨pad2 d.day ++ ' ' :: (monthName d.month).toList ++ ' ' :: pad4 d.year⟩

/-- Lowercase ordinal suffix pair test, for the (st|nd|rd|th) group of
the substitution pattern; the pattern is compiled without
re.IGNORECASE, so uppercase suffixes do not qualify. -/
def isOrdPair (c c2 : Char) : Bool :=
  (c = 's' && c2 = 't') || (c = 'n' && c2 = 'd') ||
  (c = 'r' && c2 = 'd') || (c = 't' && c2 = 'h')

/-- Scanner for re.sub(r'(a digit run)(st|nd|rd|th)', the digits, s):
delete a lowercase ordinal suffix that immediately follows a digit run,
keeping the digits.  out is the reversed output so far, run the
reversed pending digit run.  The left-to-right scan matches the sub
semantics because a digit run not followed by a lowercase suffix
admits no match anywhere inside it (the suffix letters are not
digits). -/
def ordSubGo : List Char → List Char → List Char → List Char
  | out, run, [] => (run ++ out).reverse
  | out, run, [c] =>
    if c.isDigit then ((c :: run) ++ out).reverse
    else (c :: (run ++ out)).reverse
  | out, run, c :: c2 :: rest =>
    if c.isDigit then ordSubGo out (c :: run) (c2 :: rest)
    else if !run.isEmpty && isOrdPair c c2 then ordSubGo (run ++ out) [] rest
    else ordSubGo (c :: (run ++ out)) [] (c2 :: rest)

/-- The cleaned_date_str substitution of extract_future_dates
(src/main.py line 194). -/
def ordSub (s : List Char) : List Char := ordSubGo [] [] s

/-- Python str.replace(",", ""): drop every comma. -/
def removeCommas (s : List Char) : List Char := s.filter (fun c => c ≠ ',')

/-- Per-match processing of extract_future_dates (src/main.py lines
184-201): strip the match, strip lowercase ordinal suffixes, drop
commas, then try the formats in order.  Returns the parsed date, or
none when every format fails. -/
def minerProcess (m : List Char) : Option Date :=
  tryFormats minerFormats (removeCommas (ordSub (pyStrip m)))

/-- The parsed dates of all regex matches, in text order; this part of
extract_future_dates does not depend on the invocation instant. -/
def minerCandidates (text : String) : List Date :=
  (reFindAll minerDateRe text.toList).filterMap minerProcess

/-- Canonical result of Python sorted(list(set(l))) for strings: the
strictly increasing (by code-point lexicographic order) enumeration of
the distinct elements, built by ordered insertion. -/
def listLtB : List Char → List Char → Bool
  | [], [] => false
  | [], _ :: _ => true
  | _ :: _, [] => false
  | a :: as, b :: bs =>
    if a.toNat < b.toNat then true
    else if a.toNat = b.toNat then listLtB as bs
    else false

/-- Python string comparison (lexicographic by code point). -/
def strLtB (a b : String) : Bool := listLtB a.toList b.toList

/-- Ordered duplicate-free insertion for sortedSet. -/
def insertStr (x : String) : List String → List String
  | [] => [x]
  | y :: ys =>
    if strLtB x y then x :: y :: ys
    else if x = y then y :: ys
    else y :: insertStr x ys

/-- sorted(list(set(l))) for Python strings. -/
def sortedSet (l : List String) : List String :=
  l.foldl (fun acc x => insertStr x acc) []

/-- dates_found of extract_future_dates: the future-only filter and the
strftime("%d %B %Y") rendering, applied to the parsed dates in text
order. -/
def futureStrings (now : DateTime) (text : String) : List String :=
  (minerCandidates text).filterMap
    (fun d => if dtLt now (midnight d) then some (strftime_d_B_Y d) else none)

/-- extract_future_dates (src/main.py lines 166-207), with the
invocation instant datetime.now() made explicit.  Keeps a parsed date
exactly when it is strictly later than the instant, renders it with
strftime("%d %B %Y"), deduplicates and sorts. -/
def extract_future_dates (now : DateTime) (text : String) : List String × Nat :=
  (sortedSet (futureStrings now text), (sortedSet (futureStrings now text)).length)


/-- extract_case_numbers (src/main.py lines 212-223): find all matches
of the case-number pattern, strip each, drop empty strings, then
list(set(...)).  Python set order is unspecified (hash order); the
model keeps the first occurrence of each distinct string, which agrees
with the source on the empty and singleton outputs all theorems below
use. -/
def caseNumberList (text : String) : List String :=
  (((reFindAll caseNumRe text.toList).map (fun m => (pyStrip m).asString)).filter
    (fun s => s ≠ "")).dedup

/-- The (list, count) pair extract_case_numbers returns. -/
def extract_case_numbers (text : String) : List String × Nat :=
  (caseNumberList text, (caseNumberList text).length)

/-- re.split(r'(?<=[.!?])\s+', text): split at each maximal whitespace
run whose preceding character is terminal punctuation.  cur is the
reversed current segment; the lookbehind only ever succeeds on . ! ?,
so only the previous character needs tracking. -/
def sentSplitGo : List Char → Option Char → List Char → Bool → List (List Char)
  | [], _, cur, _ => [cur.reverse]
  | c :: rest, prev, cur, inRun =>
    if inRun && isWs c then
      sentSplitGo rest (some c) cur true
    else if !inRun && isWs c && (prev = some '.' || prev = some '!' || prev = some '?') then
      cur.reverse :: sentSplitGo rest (some c) [] true
    else
      sentSplitGo rest (some c) (c :: cur) false

/-- Sentence segmentation of generate_case_timeline (src/main.py line
246). -/
def sentSplit (text : String) : List (List Char) :=
  sentSplitGo text.toList none [] false


/-- Non-strict order on calendar dates, the sort comparator induced by
sorting Python datetimes (all timeline datetimes are midnights). -/
def dateLe (a b : Date) : Prop := dateLt a b ∨ a = b

instance (a b : Date) : Decidable (dateLe a b) := by
  unfold dateLe; infer_instance

/-- re.sub(r'\s+', a single space, s): collapse every maximal
whitespace run to one space, as a structural state machine. -/
def collapseWsGo : Bool → List Char → List Char
  | _, [] => []
  | inRun, c :: rest =>
    if isWs c then
      if inRun then collapseWsGo true rest else ' ' :: collapseWsGo true rest
    else c :: collapseWsGo false rest

/-- Whitespace collapsing of the timeline event text. -/
def collapseWs (s : List Char) : List Char := collapseWsGo false s

/-- Python str.replace(" - ", "; "): left-to-right, non-overlapping,
resuming after each replacement. -/
def replaceDash : List Char → List Char
  | ' ' :: '-' :: ' ' :: rest => ';' :: ' ' :: replaceDash rest
  | c :: rest => c :: replaceDash rest
  | [] => []

/-- Case-insensitive prefix removal that also returns the matched
input characters (for a regex group whose text is reused). -/
def stripPrefIK : List Char → List Char → List Char → Option (List Char × List Char)
  | [], acc, s => some (acc.reverse, s)
  | _ :: _, _, [] => none
  | p :: ps, acc, c :: cs =>
    if c.toLower = p.toLower then stripPrefIK ps (c :: acc) cs else none

/-- month_match of generate_case_timeline (src/main.py line 268):
re.match(r"(MONTH)\s+(\d{4})", date_str, re.IGNORECASE).  Returns the
two groups (month name as it appears in the input, year digits); the
match is anchored at the start and may leave a suffix unconsumed. -/
def matchMonthYearGo : List (Nat × String) → List Char → Option (List Char × List Char)
  | [], _ => none
  | (_, nm) :: restNames, s =>
    match stripPrefIK nm.toList [] s with
    | some (mc, s2) =>
      let wsRun := s2.takeWhile isWs
      let s3 := s2.dropWhile isWs
      if wsRun.isEmpty then matchMonthYearGo restNames s
      else
        match s3 with
        | c1 :: c2 :: c3 :: c4 :: _ =>
          if c1.isDigit && c2.isDigit && c3.isDigit && c4.isDigit then
            some (mc, [c1, c2, c3, c4])
          else matchMonthYearGo restNames s
        | _ => matchMonthYearGo restNames s
    | none => matchMonthYearGo restNames s

/-- Anchored month-year match on date_str (the 15th-of-month fallback
of the timeline builder). -/
def matchMonthYear (s : List Char) : Option (List Char × List Char) :=
  matchMonthYearGo monthNumbered s

/-- The cleaned event description step for a sentence whose date
parsed (src/main.py lines 277-284): remove the date matches, strip,
collapse whitespace, normalize " - " to "; ", strip, and drop
fragments shorter than 5 characters. -/
def timelineEventOf (sentence date_str : List Char) (d : Date) : Option (Date × String × String) :=
  let e1 := pyStrip (reDelAll timelineDateRe sentence)
  let e2 := collapseWs e1
  let e3 := pyStrip (replaceDash e2)
  if e3.length < 5 then none
  else some (d, date_str.asString, e3.asString)

/-- Per-sentence processing of generate_case_timeline (src/main.py
lines 251-284), without the status classification: search the first
date-like match, parse it against the timeline formats (whose
try/except absorbs every failure), fall back to the
f"15 {month} {year}" reparse for month-year strings, then build the
cleaned event description.  The fallback dt.strptime call
(src/main.py line 271) sits OUTSIDE any try/except: for the
constructed string the parse itself always succeeds and the datetime
constructor rejects exactly a 0000 year, so the embedded strptime
returns none there precisely when Python raises an uncaught
ValueError — modelled as the error outcome.  ok none is a skipped
sentence, ok (some _) a kept (parsed date, date_str, event text)
triple. -/
def timelineProcess (sentence : List Char) : Except String (Option (Date × String × String)) :=
  match reSearch timelineDateRe sentence with
  | none => .ok none
  | some m =>
    let date_str := pyStrip m
    match tryFormats timelineFormats (removeCommas date_str) with
    | some d => .ok (timelineEventOf sentence date_str d)
    | none =>
      match matchMonthYear date_str with
      | none => .ok none
      | some (mc, yc) =>
        match strptime fmt_d_B_Y ('1' :: '5' :: ' ' :: (mc ++ ' ' :: yc)) with
        | some d => .ok (timelineEventOf sentence date_str d)
        | none => .error "ValueError: year 0 is out of range"

/-- The sentence loop of generate_case_timeline: the first raising
sentence aborts the loop, discarding the events gathered so far, as an
uncaught exception does. -/
def timelineCandidatesGo : List (List Char) → Except String (List (Date × String × String))
  | [] => .ok []
  | s :: rest =>
    match timelineProcess s with
    | .error e => .error e
    | .ok none => timelineCandidatesGo rest
    | .ok (some t) =>
      match timelineCandidatesGo rest with
      | .error e => .error e
      | .ok ts => .ok (t :: ts)

/-- The (date, date text, event text) triples of all kept sentences in
text order, or the uncaught ValueError; this part of
generate_case_timeline does not depend on the build instant. -/
def timelineCandidates (text : String) : Except String (List (Date × String × String)) :=
  timelineCandidatesGo (sentSplit text)

/-- A timeline event row: parsed date, original date text, cleaned
event description, status string. -/
structure TEvent where
  date : Date
  dateStr : String
  text : String
  status : String
deriving DecidableEq, Repr

/-- Status classification of generate_case_timeline (src/main.py line
283): Completed exactly when the parsed date is strictly before the
build instant. -/
def statusOf (now : DateTime) (d : Date) : String :=
  if dtLt (midnight d) now then "✅ Completed" else "⏳ Upcoming"

/-- The events list of generate_case_timeline before sorting, in text
order, or the uncaught ValueError of the month-year fallback. -/
def mkEvents (now : DateTime) (text : String) : Except String (List TEvent) :=
  match timelineCandidates text with
  | .error e => .error e
  | .ok cands => .ok (cands.map (fun t => ⟨t.1, t.2.1, t.2.2, statusOf now t.1⟩))

/-- Stable insertion before the first element with a later-or-equal
date. -/
def insEv (x : TEvent) : List TEvent → List TEvent
  | [] => [x]
  | y :: ys => if dateLe x.date y.date then x :: y :: ys else y :: insEv x ys

/-- Stable insertion sort by parsed date: the unique stable ascending
ordering, hence the result of Python events.sort(key=lambda x: x[0])
(all keys are midnight datetimes). -/
def isortEv : List TEvent → List TEvent
  | [] => []
  | x :: xs => insEv x (isortEv xs)

/-- Display truncation of an event description (src/main.py line 296). -/
def truncEv (e : String) : String :=
  ⟨e.toList.take 120 ++ (if 120 < e.toList.length then "...".toList else [])⟩

/-- One Markdown table row (src/main.py line 297). -/
def eventRow (e : TEvent) : String :=
  "| " ++ e.dateStr ++ " | " ++ truncEv e.text ++ " | " ++ e.status ++ " |\n"

/-- The Markdown table header (src/main.py lines 293-294). -/
def tableHeader : String :=
  "| **Date** | **Event** | **Status** |\n|-----------|------------|-------------|\n"

/-- generate_case_timeline (src/main.py lines 228-299), with the build
instant datetime.now() made explicit.  ok is the returned string
(sentinel or rendered table); error is the ValueError the function
raises, uncaught, from the month-year fallback. -/
def generate_case_timeline (now : DateTime) (text : String) : Except String String :=
  match mkEvents now text with
  | .error e => .error e
  | .ok events =>
    .ok (if events.isEmpty then "No timeline events detected."
         else tableHeader ++ String.join ((isortEv events).map eventRow))




/-- JSON values as produced by json.loads (numbers restricted to
integers; no payload analyzed below contains a fraction, exponent or
\u escape). -/
inductive Json where
  | null : Json
  | bool : Bool → Json
  | num : Int → Json
  | str : String → Json
  | arr : List Json → Json
  | obj : List (String × Json) → Json

/-- JSON whitespace (RFC 8259): space, tab, line feed, carriage
return. -/
def skipJWs (s : List Char) : List Char :=
  s.dropWhile (fun c => c = ' ' || c = '\t' || c = '\n' || c = '\x0d')

/-- JSON string escape characters (\uXXXX escapes are not modelled;
they fail the parse). -/
def jEsc (c : Char) : Option Char :=
  if c = '"' then some '"'
  else if c = '\\' then some '\\'
  else if c = '/' then some '/'
  else if c = 'b' then some '\x08'
  else if c = 'f' then some '\x0c'
  else if c = 'n' then some '\n'
  else if c = 'r' then some '\x0d'
  else if c = 't' then some '\t'
  else none

/-- Body of a JSON string after its opening quote: the decoded content
and the input after the closing quote. -/
def jStr : List Char → Option (List Char × List Char)
  | [] => none
  | '"' :: rest => some ([], rest)
  | '\\' :: e :: rest =>
    match jEsc e with
    | some c => (jStr rest).map (fun p => (c :: p.1, p.2))
    | none => none
  | c :: rest => (jStr rest).map (fun p => (c :: p.1, p.2))

/-- A JSON integer: optional minus sign, then digits. -/
def jNum : List Char → Option (Int × List Char)
  | '-' :: rest =>
    let ds := rest.takeWhile Char.isDigit
    if ds.isEmpty then none
    else some (-(Int.ofNat (ds.foldl (fun a c => a * 10 + dval c) 0)), rest.dropWhile Char.isDigit)
  | s =>
    let ds := s.takeWhile Char.isDigit
    if ds.isEmpty then none
    else some (Int.ofNat (ds.foldl (fun a c => a * 10 + dval c) 0), s.dropWhile Char.isDigit)

mutual

/-- Recursive-descent JSON value parser; the fuel bounds the nesting
depth, which is at most the input length. -/
def jVal : Nat → List Char → Option (Json × List Char)
  | 0, _ => none
  | fuel + 1, s =>
    match skipJWs s with
    | 'n' :: 'u' :: 'l' :: 'l' :: r => some (.null, r)
    | 't' :: 'r' :: 'u' :: 'e' :: r => some (.bool true, r)
    | 'f' :: 'a' :: 'l' :: 's' :: 'e' :: r => some (.bool false, r)
    | '"' :: r => (jStr r).map (fun p => (.str p.1.asString, p.2))
    | '\x7b' :: r =>
      (match skipJWs r with
       | '\x7d' :: r2 => some (.obj [], r2)
       | r2 => (jMembers fuel r2).map (fun p => (.obj p.1, p.2)))
    | '[' :: r =>
      (match skipJWs r with
       | ']' :: r2 => some (.arr [], r2)
       | r2 => (jItems fuel r2).map (fun p => (.arr p.1, p.2)))
    | s2 => (jNum s2).map (fun p => (.num p.1, p.2))

/-- Non-empty member list of a JSON object, up to and including the
closing brace. -/
def jMembers : Nat → List Char → Option (List (String × Json) × List Char)
  | 0, _ => none
  | fuel + 1, s =>
    match skipJWs s with
    | '"' :: r =>
      match jStr r with
      | none => none
      | some (key, r2) =>
        match skipJWs r2 with
        | ':' :: r3 =>
          match jVal fuel r3 with
          | none => none
          | some (v, r4) =>
            match skipJWs r4 with
            | ',' :: r5 => (jMembers fuel r5).map (fun p => ((key.asString, v) :: p.1, p.2))
            | '\x7d' :: r5 => some ([(key.asString, v)], r5)
            | _ => none
        | _ => none
    | _ => none

/-- Non-empty item list of a JSON array, up to and including the
closing bracket. -/
def jItems : Nat → List Char → Option (List Json × List Char)
  | 0, _ => none
  | fuel + 1, s =>
    match jVal fuel s with
    | none => none
    | some (v, r) =>
      match skipJWs r with
      | ',' :: r2 => (jItems fuel r2).map (fun p => (v :: p.1, p.2))
      | ']' :: r2 => some ([v], r2)
      | _ => none

end

/-- json.loads on a character list: a single value, possibly surrounded
by whitespace. -/
def jsonParse (s : List Char) : Option Json :=
  match jVal (s.length + 1) s with
  | some (v, r) => if skipJWs r = [] then some v else none
  | none => none

/-- The regex r'(first brace).*(last brace)' compiled with re.DOTALL
(src/main.py line 155): an opening brace, any characters including
newlines, then a closing brace; the greedy star makes the span run to
the last closing brace of the input. -/
def braceRe : Re :=
  reSeq [.lit '\x7b', .rep (fun _ => true) 0 none, .lit '\x7d']

/-- An HTTP error as raised by the source (HTTPException with a status
code and a detail string). -/
structure HTTPException where
  status : Nat
  detail : String
deriving DecidableEq, Repr

/-- extract_structured_summary (src/main.py lines 152-161), modelled as
a function of the raw text the external capability returned: search for
a brace-delimited span; parse it as JSON; a missing span yields the
error-marker object, while a span json.loads rejects raises
HTTPException(500) whose detail starts with the fixed prelude below
(the Python message also embeds the exception text). -/
def extract_structured_summary (responseText : String) : Except HTTPException Json :=
  match reSearch braceRe responseText.toList with
  | some m =>
    match jsonParse m with
    | some j => .ok j
    | none => .error ⟨500, "Gemini extraction failed"⟩
  | none => .ok (.obj [("error", .str "No structured JSON found")])


/-- One uploaded file of a batch (content handling is external; the
oracle below maps the file to its extracted text). -/
structure UpFile where
  filename : String
deriving DecidableEq, Repr

/-- The per-document record appended to the response (src/main.py lines
383-389), with the metadata counts flattened. -/
structure DocumentResult where
  filename : String
  summary : String
  structured : Json
  upcomingDatesCount : Nat
  sectionsCount : Nat
  caseNumbers : List String
  caseNumberCount : Nat
  timeline : String

/-- First binding for a key in a parsed JSON object. -/
def jLookup (kvs : List (String × Json)) (key : String) : Option Json :=
  (kvs.find? (fun p => p.1 = key)).map (fun p => p.2)

/-- sections_found_count (src/main.py line 353): the length of the
Sections_Invoked list of the structured summary, 0 when absent or when
the structured data is empty.  A non-list value under the key would
raise TypeError in Python; it is modelled as 0 and unreachable in the
theorems below. -/
def sectionsOf (j : Json) : Nat :=
  match j with
  | .obj kvs =>
    match jLookup kvs "Sections_Invoked" with
    | some (.arr xs) => xs.length
    | _ => 0
  | _ => 0

/-- The structured-extraction step as seen from the upload loop: the
external capability may fail (first component), and its textual
response then goes through the JSON isolation of
extract_structured_summary. -/
def structuredStep (genStructured : String → Except HTTPException String) (text : String) : Except HTTPException Json :=
  match genStructured text with
  | .error e => .error e
  | .ok resp => extract_structured_summary resp

/-- What escapes the upload loop when a step fails: an HTTPException
raised by a pipeline step, or an uncaught plain exception (the
timeline ValueError) that the framework turns into a server error. -/
inductive UploadError where
  | http : HTTPException → UploadError
  | pyRaise : String → UploadError
deriving DecidableEq, Repr

/-- upload_and_summarize (src/main.py lines 323-397) after
authentication, as a function of the external collaborators: the text
extractor (PDF reading), the summarizer and the structured-extraction
capability.  Python exceptions are Except errors; an error anywhere
aborts the whole request (the for-loop has no exception handler), so
the caller receives either every kept DocumentResult or a single
escaped exception — an HTTPException from a pipeline step, or the
timeline ValueError.  Files whose extracted text is empty are
skipped. -/
def upload_and_summarize (now : DateTime)
    (extractText : UpFile → Except HTTPException String)
    (summarize : String → Except HTTPException String)
    (genStructured : String → Except HTTPException String) :
    List UpFile → Except UploadError (List DocumentResult)
  | [] => .ok []
  | f :: rest =>
    match extractText f with
    | .error e => .error (.http e)
    | .ok text =>
      if text = "" then
        upload_and_summarize now extractText summarize genStructured rest
      else
        match summarize text with
        | .error e => .error (.http e)
        | .ok summary =>
          match structuredStep genStructured text with
          | .error e => .error (.http e)
          | .ok structured_data =>
            match generate_case_timeline now text with
            | .error msg => .error (.pyRaise msg)
            | .ok timeline_table =>
              match upload_and_summarize now extractText summarize genStructured rest with
              | .error e => .error e
              | .ok others =>
                .ok (⟨f.filename, summary, structured_data,
                      (extract_future_dates now text).2,
                      sectionsOf structured_data,
                      (extract_case_numbers text).1, (extract_case_numbers text).2,
                      timeline_table⟩ :: others)

/-- Is the needle a prefix of the haystack? -/
def isPrefOf : List Char → List Char → Bool
  | [], _ => true
  | _ :: _, [] => false
  | a :: as, b :: bs => a = b && isPrefOf as bs

/-- Substring test (Python in operator on str). -/
def containsSub : List Char → List Char → Bool
  | [], n => n.isEmpty
  | h :: rest, n => isPrefOf n (h :: rest) || containsSub rest n

/-- Substring test on strings. -/
def strContains (hay needle : String) : Bool :=
  containsSub hay.toList needle.toList

/-- Date order is total. -/
theorem dateLe_total (a b : Date) : dateLe a b ∨ dateLe b a := by
  simp only [dateLe, dateLt, Date.ext_iff]
  omega

/-- Date order is reflexive. -/
theorem dateLe_refl (a : Date) : dateLe a a := by
  simp [dateLe]

/-- Equal dates compare as less-or-equal. -/
theorem dateLe_of_eq {a b : Date} (h : a = b) : dateLe a b := by
  simp [dateLe, h]

/-- A datetime with a year strictly below a date's year precedes that
date's midnight. -/
theorem dtLt_mid_of_year_lt {now : DateTime} {d : Date} (h : now.date.year < d.year) :
    dtLt now (midnight d) := by
  simp only [dtLt, dateLt, midnight]
  omega

/-- A date's midnight does not precede a datetime whose year is
strictly smaller. -/
theorem not_dtLt_mid_of_year_lt {now : DateTime} {d : Date} (h : now.date.year < d.year) :
    ¬ dtLt (midnight d) now := by
  simp only [dtLt, dateLt, midnight, Date.ext_iff]
  omega

/-- Preceding a date's midnight implies strictly preceding the date
itself on the calendar. -/
theorem dateLt_of_dtLt_mid {now : DateTime} {d : Date} (h : dtLt now (midnight d)) :
    dateLt now.date d := by
  simp only [dtLt, midnight] at h
  rcases h with h | ⟨_, h2⟩
  · exact h
  · omega

/-- Characters with equal code points are equal. -/
theorem charEq_of_toNat {a b : Char} (h : a.toNat = b.toNat) : a = b :=
  Char.eq_of_val_eq (UInt32.toNat.inj h)

/-- Code-point order on character lists is irreflexive. -/
theorem listLtB_irrefl (l : List Char) : listLtB l l = false := by
  induction l with
  | nil => rfl
  | cons c cs ih => simp [listLtB, ih]

/-- Code-point order on character lists is connected: unequal lists
compare strictly in one direction. -/
theorem listLtB_conn : ∀ (a b : List Char), a ≠ b → listLtB a b = false → listLtB b a = true := by
  intro a
  induction a with
  | nil =>
    intro b hne hf
    cases b with
    | nil => exact absurd rfl hne
    | cons c cs => simp [listLtB] at hf
  | cons c cs ih =>
    intro b hne hf
    cases b with
    | nil => simp [listLtB]
    | cons d ds =>
      simp only [listLtB] at hf ⊢
      by_cases hlt : c.toNat < d.toNat
      · simp [hlt] at hf
      · by_cases heq : c.toNat = d.toNat
        · have hcd : c = d := charEq_of_toNat heq
          subst hcd
          simp only [Nat.lt_irrefl, if_false, if_pos rfl] at hf ⊢
          have hne2 : cs ≠ ds := fun hh => hne (by rw [hh])
          exact ih ds hne2 hf
        · have : d.toNat < c.toNat := by omega
          simp [this]

/-- Code-point order on character lists is transitive. -/
theorem listLtB_trans : ∀ (a b c : List Char), listLtB a b = true → listLtB b c = true → listLtB a c = true := by
  intro a
  induction a with
  | nil =>
    intro b c hab hbc
    cases c with
    | nil =>
      cases b with
      | nil => exact hab
      | cons d ds => simp [listLtB] at hbc
    | cons e es => simp [listLtB]
  | cons x xs ih =>
    intro b c hab hbc
    cases b with
    | nil => simp [listLtB] at hab
    | cons y ys =>
      cases c with
      | nil => simp [listLtB] at hbc
      | cons z zs =>
        simp only [listLtB] at hab hbc ⊢
        by_cases h1 : x.toNat < y.toNat
        · by_cases h2 : y.toNat < z.toNat
          · have : x.toNat < z.toNat := by omega
            simp [this]
          · by_cases h3 : y.toNat = z.toNat
            · have : x.toNat < z.toNat := by omega
              simp [this]
            · simp [h2, h3] at hbc
        · by_cases h1e : x.toNat = y.toNat
          · by_cases h2 : y.toNat < z.toNat
            · have : x.toNat < z.toNat := by omega
              simp [this]
            · by_cases h3 : y.toNat = z.toNat
              · have hxz : x.toNat = z.toNat := by omega
                have hxz2 : ¬ x.toNat < z.toNat := by omega
                rw [if_neg h1, if_pos h1e] at hab
                rw [if_neg h2, if_pos h3] at hbc
                rw [if_neg hxz2, if_pos hxz]
                exact ih ys zs hab hbc
              · simp [h2, h3] at hbc
          · simp [h1, h1e] at hab

/-- Strict string order as a proposition. -/
def strLtP (a b : String) : Prop := strLtB a b = true

instance : IsTrans String strLtP :=
  ⟨fun _ _ _ hab hbc => listLtB_trans _ _ _ hab hbc⟩

/-- Equal strings have equal character lists; conversely lists
determine the string. -/
theorem strEq_of_toList {a b : String} (h : a.toList = b.toList) : a = b := by
  cases a; cases b
  exact congrArg String.mk (by simpa [String.toList] using h)

/-- String order is irreflexive. -/
theorem strLtP_irrefl (a : String) : ¬ strLtP a a := by
  simp [strLtP, strLtB, listLtB_irrefl]

/-- String order is connected. -/
theorem strLtP_conn {a b : String} (hne : a ≠ b) (hf : ¬ strLtP a b) : strLtP b a := by
  have hf2 : strLtB a b = false := by
    cases hb : strLtB a b
    · rfl
    · exact absurd hb hf
  have hnl : a.toList ≠ b.toList := fun hh => hne (strEq_of_toList hh)
  exact listLtB_conn a.toList b.toList hnl hf2

/-- Membership after an ordered insertion. -/
theorem mem_insertStr {y x : String} : ∀ {l : List String}, y ∈ insertStr x l → y = x ∨ y ∈ l := by
  intro l
  induction l with
  | nil => intro h; simp [insertStr] at h; exact Or.inl h
  | cons z zs ih =>
    intro h
    simp only [insertStr] at h
    split at h
    · rcases List.mem_cons.mp h with h1 | h1
      · exact Or.inl h1
      · exact Or.inr h1
    · split at h
      · exact Or.inr h
      · rcases List.mem_cons.mp h with h1 | h1
        · exact Or.inr (by simp [h1])
        · rcases ih h1 with h2 | h2
          · exact Or.inl h2
          · exact Or.inr (List.mem_cons_of_mem z h2)

/-- Ordered duplicate-free insertion preserves strict sortedness. -/
theorem chain_insertStr (x : String) : ∀ {l : List String},
    List.Chain' strLtP l → List.Chain' strLtP (insertStr x l) := by
  intro l
  induction l with
  | nil => intro _; simp [insertStr, List.chain'_singleton]
  | cons z zs ih =>
    intro hch
    simp only [insertStr]
    split
    · exact List.Chain'.cons (by assumption) hch
    · split
      · exact hch
      · rename_i hnlt hne
        have hz : strLtP z x := by
          refine strLtP_conn (fun hh => hne hh) ?_
          simp only [strLtP]
          simp at hnlt
          simp [hnlt]
        have htail : List.Chain' strLtP (insertStr x zs) := ih (hch.tail)
        rw [List.chain'_cons']
        refine ⟨?_, htail⟩
        intro h hh
        cases zs with
        | nil =>
          simp [insertStr] at hh
          subst hh; exact hz
        | cons w ws =>
          simp only [insertStr] at hh
          revert hh
          split
          · intro hh; simp at hh; subst hh; exact hz
          · split
            · intro hh
              simp at hh
              subst hh
              exact (List.chain'_cons.mp hch).1
            · intro hh
              simp at hh
              subst hh
              exact (List.chain'_cons.mp hch).1

/-- sortedSet always yields a strictly sorted list. -/
theorem chain_sortedSet (l : List String) : List.Chain' strLtP (sortedSet l) := by
  have key : ∀ (m : List String) (acc : List String), List.Chain' strLtP acc →
      List.Chain' strLtP (m.foldl (fun a x => insertStr x a) acc) := by
    intro m
    induction m with
    | nil => intro acc h; exact h
    | cons x xs ihm => intro acc h; exact ihm _ (chain_insertStr x h)
  exact key l [] (by simp)

/-- Every member of sortedSet l comes from l. -/
theorem mem_sortedSet {y : String} {l : List String} (h : y ∈ sortedSet l) : y ∈ l := by
  have key : ∀ (m : List String) (acc : List String), y ∈ m.foldl (fun a x => insertStr x a) acc →
      y ∈ acc ∨ y ∈ m := by
    intro m
    induction m with
    | nil => intro acc hh; exact Or.inl hh
    | cons x xs ihm =>
      intro acc hh
      rcases ihm _ hh with h2 | h2
      · rcases mem_insertStr h2 with h3 | h3
        · exact Or.inr (by simp [h3])
        · exact Or.inl h3
      · exact Or.inr (List.mem_cons_of_mem x h2)
  rcases key l [] h with h2 | h2
  · simp at h2
  · exact h2

/-- sortedSet never contains duplicates. -/
theorem nodup_sortedSet (l : List String) : (sortedSet l).Nodup := by
  have hp : (sortedSet l).Pairwise strLtP :=
    (List.chain'_iff_pairwise).mp (chain_sortedSet l)
  exact hp.imp (fun {a b} hab => by
    intro hEq
    subst hEq
    exact strLtP_irrefl a hab)

/-- Membership after a stable event insertion. -/
theorem mem_insEv {y x : TEvent} : ∀ {l : List TEvent}, y ∈ insEv x l → y = x ∨ y ∈ l := by
  intro l
  induction l with
  | nil =>
    intro h
    simp [insEv] at h
    exact Or.inl h
  | cons z zs ih =>
    intro h
    simp only [insEv] at h
    split at h
    · rcases List.mem_cons.mp h with h1 | h1
      · exact Or.inl h1
      · exact Or.inr h1
    · rcases List.mem_cons.mp h with h1 | h1
      · exact Or.inr (by simp [h1])
      · rcases ih h1 with h2 | h2
        · exact Or.inl h2
        · exact Or.inr (List.mem_cons_of_mem z h2)

/-- Membership is preserved by the event sort. -/
theorem mem_isortEv {y : TEvent} : ∀ {l : List TEvent}, y ∈ isortEv l → y ∈ l := by
  intro l
  induction l with
  | nil => intro h; simp [isortEv] at h
  | cons x xs ih =>
    intro h
    simp only [isortEv] at h
    rcases mem_insEv h with h1 | h1
    · simp [h1]
    · exact List.mem_cons_of_mem x (ih h1)

/-- Stable insertion preserves sortedness by date. -/
theorem chain_insEv (x : TEvent) : ∀ {l : List TEvent},
    List.Chain' (fun a b => dateLe a.date b.date) l →
    List.Chain' (fun a b => dateLe a.date b.date) (insEv x l) := by
  intro l
  induction l with
  | nil => intro _; simp [insEv, List.chain'_singleton]
  | cons z zs ih =>
    intro hch
    simp only [insEv]
    split
    · exact List.Chain'.cons (by assumption) hch
    · rename_i hnle
      have hz : dateLe z.date x.date := by
        rcases dateLe_total x.date z.date with h | h
        · exact absurd h hnle
        · exact h
      have htail := ih hch.tail
      rw [List.chain'_cons']
      refine ⟨?_, htail⟩
      intro h hh
      cases zs with
      | nil =>
        simp [insEv] at hh
        subst hh; exact hz
      | cons w ws =>
        simp only [insEv] at hh
        revert hh
        split
        · intro hh; simp at hh; subst hh; exact hz
        · intro hh
          simp at hh
          subst hh
          exact (List.chain'_cons.mp hch).1

/-- The event sort yields a list sorted by parsed date. -/
theorem chain_isortEv : ∀ (l : List TEvent),
    List.Chain' (fun a b => dateLe a.date b.date) (isortEv l) := by
  intro l
  induction l with
  | nil => simp [isortEv]
  | cons x xs ih => exact chain_insEv x ih

/-- Insertion is stable: the equal-date sublist gains x at its front
exactly when x carries that date, because insertion only passes over
strictly earlier dates. -/
theorem filter_insEv (x : TEvent) (dd : Date) : ∀ (l : List TEvent),
    (insEv x l).filter (fun e => e.date = dd) =
      if x.date = dd then x :: l.filter (fun e => e.date = dd)
      else l.filter (fun e => e.date = dd) := by
  intro l
  induction l with
  | nil =>
    by_cases hx : x.date = dd
    · simp [insEv, List.filter, hx]
    · simp [insEv, List.filter, hx]
  | cons z zs ih =>
    simp only [insEv]
    split
    · rename_i hle
      by_cases hx : x.date = dd
      · simp [List.filter, hx]
      · simp [List.filter, hx]
    · rename_i hnle
      by_cases hx : x.date = dd
      · have hz : ¬ (z.date = dd) := by
          intro hzd
          exact hnle (dateLe_of_eq (by rw [hx, hzd]))
        simp only [List.filter_cons, ih]
        simp [hx, hz]
      · simp only [List.filter_cons, ih]
        by_cases hz : z.date = dd
        · simp [hx, hz]
        · simp [hx, hz]

/-- The event sort is stable: for every date, the sublist of events
carrying that date is unchanged (ties keep original text order). -/
theorem filter_isortEv (dd : Date) : ∀ (l : List TEvent),
    (isortEv l).filter (fun e => e.date = dd) = l.filter (fun e => e.date = dd) := by
  intro l
  induction l with
  | nil => simp [isortEv]
  | cons x xs ih =>
    simp only [isortEv]
    rw [filter_insEv, ih]
    by_cases hx : x.date = dd
    · simp [List.filter_cons, hx]
    · simp [List.filter_cons, hx]

/-- Unfolding mkEvents on a successful candidates computation. -/
theorem mkEvents_ok {text : String} {cands : List (Date × String × String)} (now : DateTime)
    (h : timelineCandidates text = .ok cands) :
    mkEvents now text = .ok (cands.map (fun t => ⟨t.1, t.2.1, t.2.2, statusOf now t.1⟩)) := by
  rw [mkEvents, h]

/-- mkEvents propagates the timeline ValueError. -/
theorem mkEvents_err {text msg : String} (now : DateTime)
    (h : timelineCandidates text = .error msg) :
    mkEvents now text = .error msg := by
  rw [mkEvents, h]

/-- Unfolding generate_case_timeline on a successful events list. -/
theorem generate_case_timeline_ok {now : DateTime} {text : String} {events : List TEvent}
    (h : mkEvents now text = .ok events) :
    generate_case_timeline now text =
      .ok (if events.isEmpty then "No timeline events detected."
           else tableHeader ++ String.join ((isortEv events).map eventRow)) := by
  rw [generate_case_timeline, h]

/-- generate_case_timeline propagates the timeline ValueError. -/
theorem generate_case_timeline_err {now : DateTime} {text msg : String}
    (h : mkEvents now text = .error msg) :
    generate_case_timeline now text = .error msg := by
  rw [generate_case_timeline, h]

/-- C1 (as stated, counterexample): on the round-trip input,
extract_case_numbers does not return (["Case No. 45/2021"], 1); the
greedy optional prefix class [A-Z.() ] of the pattern also absorbs the
preceding sentence period and space, and strip removes only
whitespace, so the single returned token is ". Case No. 45/2021". -/
theorem claim_c1_counterexample :
    extract_case_numbers "The hearing is scheduled for 15 March 2099. Case No. 45/2021 was filed." = ([". Case No. 45/2021"], 1) ∧
    extract_case_numbers "The hearing is scheduled for 15 March 2099. Case No. 45/2021 was filed." ≠ (["Case No. 45/2021"], 1) := by
  constructor
  · decide
  · decide

/-- C1 (amended): on the round-trip input, at any invocation instant
whose year precedes 2099, extract_future_dates returns
(["15 March 2099"], 1), extract_case_numbers returns
([". Case No. 45/2021"], 1) (the matched token keeps the sentence
period the greedy prefix class absorbed), and generate_case_timeline
returns a table with exactly one event row whose status is Upcoming. -/
theorem claim_c1_amended (now : DateTime) (h : now.date.year < 2099) :
    extract_future_dates now "The hearing is scheduled for 15 March 2099. Case No. 45/2021 was filed." = (["15 March 2099"], 1) ∧
    extract_case_numbers "The hearing is scheduled for 15 March 2099. Case No. 45/2021 was filed." = ([". Case No. 45/2021"], 1) ∧
    generate_case_timeline now "The hearing is scheduled for 15 March 2099. Case No. 45/2021 was filed." =
      .ok "| **Date** | **Event** | **Status** |\n|-----------|------------|-------------|\n| 15 March 2099 | The hearing is scheduled for . | ⏳ Upcoming |\n" := by
  refine ⟨?_, by decide, ?_⟩
  · have hc : minerCandidates "The hearing is scheduled for 15 March 2099. Case No. 45/2021 was filed." = [⟨2099, 3, 15⟩] := by decide
    have hlt : dtLt now (midnight ⟨2099, 3, 15⟩) := dtLt_mid_of_year_lt h
    have hf : futureStrings now "The hearing is scheduled for 15 March 2099. Case No. 45/2021 was filed." = ["15 March 2099"] := by
      rw [futureStrings, hc, List.filterMap_cons, if_pos hlt, List.filterMap_nil]
      decide
    rw [extract_future_dates, hf]
    decide
  · have ht : timelineCandidates "The hearing is scheduled for 15 March 2099. Case No. 45/2021 was filed." =
        .ok [(⟨2099, 3, 15⟩, "15 March 2099", "The hearing is scheduled for .")] := by decide
    have hnlt : ¬ dtLt (midnight ⟨2099, 3, 15⟩) now := not_dtLt_mid_of_year_lt h
    have he : mkEvents now "The hearing is scheduled for 15 March 2099. Case No. 45/2021 was filed." =
        .ok [⟨⟨2099, 3, 15⟩, "15 March 2099", "The hearing is scheduled for .", statusOf now ⟨2099, 3, 15⟩⟩] :=
      mkEvents_ok now ht
    rw [statusOf, if_neg hnlt] at he
    rw [generate_case_timeline_ok he]
    decide

/-- Witness for claim_c1_amended at the instant 2025-01-01 00:00. -/
theorem claim_c1_amended_witness :
    (DateTime.mk ⟨2025, 1, 1⟩ 0).date.year < 2099 ∧
    extract_future_dates ⟨⟨2025, 1, 1⟩, 0⟩ "The hearing is scheduled for 15 March 2099. Case No. 45/2021 was filed." = (["15 March 2099"], 1) :=
  ⟨by decide, (claim_c1_amended ⟨⟨2025, 1, 1⟩, 0⟩ (by decide)).1⟩

/-- C2 (as stated, counterexample): the output list is sorted as
strings, not by denoted date.  At instant 2025-01-01 the input below
yields the adjacent pair ("01 March 2099", "02 January 2099"), whose
denoted dates are 2099-03-01 and 2099-01-02: the first is not
less-or-equal to the second, refuting the adjacent-pair ordering
clause. -/
theorem claim_c2_counterexample :
    extract_future_dates ⟨⟨2025, 1, 1⟩, 0⟩ "Events on 01 March 2099 and 2 January 2099." =
      ([strftime_d_B_Y ⟨2099, 3, 1⟩, strftime_d_B_Y ⟨2099, 1, 2⟩], 2) ∧
    strftime_d_B_Y ⟨2099, 3, 1⟩ = "01 March 2099" ∧
    strftime_d_B_Y ⟨2099, 1, 2⟩ = "02 January 2099" ∧
    ¬ dateLe ⟨2099, 3, 1⟩ ⟨2099, 1, 2⟩ := by
  refine ⟨by decide, by decide, by decide, by decide⟩

/-- C2 (amended): every returned element is the strftime rendering of a
calendar date strictly later than the invocation instant, the list has
no duplicates, and it is sorted in strictly increasing string
(code-point lexicographic) order, which is not date order. -/
theorem claim_c2_amended (now : DateTime) (text : String) :
    List.Chain' strLtP (extract_future_dates now text).1 ∧
    (extract_future_dates now text).1.Nodup ∧
    (extract_future_dates now text).2 = (extract_future_dates now text).1.length ∧
    ∀ s ∈ (extract_future_dates now text).1,
      ∃ d : Date, s = strftime_d_B_Y d ∧ dateLt now.date d := by
  refine ⟨chain_sortedSet _, nodup_sortedSet _, rfl, ?_⟩
  intro s hs
  have hs2 : s ∈ futureStrings now text := mem_sortedSet hs
  rw [futureStrings] at hs2
  rcases List.mem_filterMap.mp hs2 with ⟨d, _, hd⟩
  by_cases hlt : dtLt now (midnight d)
  · rw [if_pos hlt] at hd
    exact ⟨d, (Option.some.inj hd).symm, dateLt_of_dtLt_mid hlt⟩
  · rw [if_neg hlt] at hd
    cases hd

/-- C3 (code bug): an occurrence in the "Month DD, YYYY" shape is
matched by the date regex but parsed by no format: the commas are
removed before parsing, yet the only format for this shape,
"%B %d, %Y", still demands a literal comma, so the date is dropped at
every invocation instant instead of being reported as "21 October
2099". -/
theorem claim_c3_bug :
    (reFindAll minerDateRe "Hearing on October 21, 2099.".toList).map List.asString = ["October 21, 2099"] ∧
    minerCandidates "Hearing on October 21, 2099." = [] ∧
    ∀ now : DateTime, extract_future_dates now "Hearing on October 21, 2099." = ([], 0) := by
  refine ⟨by decide, by decide, ?_⟩
  intro now
  have hc : minerCandidates "Hearing on October 21, 2099." = [] := by decide
  have hf : futureStrings now "Hearing on October 21, 2099." = [] := by
    rw [futureStrings, hc, List.filterMap_nil]
  rw [extract_future_dates, hf]
  decide

/-- C4 (as stated, counterexample): a month-year-only occurrence IS
resolved to a specific day.  "March 2099" parses through the "%B %Y"
format to 2099-03-01 and, at instant 2025-01-01, is reported as the
normalized date "01 March 2099" with day 01. -/
theorem claim_c4_counterexample :
    (reFindAll minerDateRe "Next hearing in March 2099.".toList).map List.asString = ["March 2099"] ∧
    extract_future_dates ⟨⟨2025, 1, 1⟩, 0⟩ "Next hearing in March 2099." = (["01 March 2099"], 1) := by
  refine ⟨by decide, by decide⟩

/-- C4 (amended): a month-year-only occurrence is auto-resolved by
extract_future_dates to the first day of that month (the "%B %Y"
format in the list parses it with day defaulting to 1) and, when
future, reported as a normalized date carrying day 01. -/
theorem claim_c4_amended (now : DateTime) (h : now.date.year < 2099) :
    extract_future_dates now "Next hearing in March 2099." = (["01 March 2099"], 1) := by
  have hc : minerCandidates "Next hearing in March 2099." = [⟨2099, 3, 1⟩] := by decide
  have hlt : dtLt now (midnight ⟨2099, 3, 1⟩) := dtLt_mid_of_year_lt h
  have hf : futureStrings now "Next hearing in March 2099." = ["01 March 2099"] := by
    rw [futureStrings, hc, List.filterMap_cons, if_pos hlt, List.filterMap_nil]
    decide
  rw [extract_future_dates, hf]
  decide

/-- Witness for claim_c4_amended at the instant 2025-01-01 00:00. -/
theorem claim_c4_amended_witness :
    (DateTime.mk ⟨2025, 1, 1⟩ 0).date.year < 2099 ∧
    extract_future_dates ⟨⟨2025, 1, 1⟩, 0⟩ "Next hearing in March 2099." = (["01 March 2099"], 1) :=
  ⟨by decide, claim_c4_amended ⟨⟨2025, 1, 1⟩, 0⟩ (by decide)⟩

/-- C5 (code bug): for a month-year-only sentence the timeline builder
records the first of the month, not the fifteenth: "March 2026" is
parsed by the "%B %Y" entry of the format list (day defaults to 1)
before the explicit 15th-of-month fallback can run, so that fallback
is dead code.  The second conjunct exhibits the parse that wins; the
third shows the recorded day differs from the specified 15. -/
theorem claim_c5_bug :
    timelineCandidates "Trial begins in March 2026." = .ok [(⟨2026, 3, 1⟩, "March 2026", "Trial begins in .")] ∧
    strptime fmt_B_Y "March 2026".toList = some ⟨2026, 3, 1⟩ ∧
    (⟨2026, 3, 1⟩ : Date).day = 1 ∧ (⟨2026, 3, 1⟩ : Date).day ≠ 15 := by
  refine ⟨by decide, by decide, by decide, by decide⟩

/-- C6 (confirmed): whenever generate_case_timeline completes — its
events built without the month-year fallback ValueError (see C7) — it
renders exactly the stably sorted events list; that list is sorted
ascending by parsed date, is stable (for each date, the events
carrying it keep their original text order), and every event carries
status Completed exactly when its parsed date strictly precedes the
build instant, Upcoming otherwise. -/
theorem claim_c6 (now : DateTime) (text : String) (events : List TEvent)
    (h : mkEvents now text = .ok events) :
    (generate_case_timeline now text =
      .ok (if events.isEmpty then "No timeline events detected."
           else tableHeader ++ String.join ((isortEv events).map eventRow))) ∧
    List.Chain' (fun a b => dateLe a.date b.date) (isortEv events) ∧
    (∀ dd : Date, (isortEv events).filter (fun e => e.date = dd) =
      events.filter (fun e => e.date = dd)) ∧
    ∀ e ∈ isortEv events,
      e.status = if dtLt (midnight e.date) now then "✅ Completed" else "⏳ Upcoming" := by
  refine ⟨generate_case_timeline_ok h, chain_isortEv _, fun dd => filter_isortEv dd _, ?_⟩
  intro e he
  have he2 : e ∈ events := mem_isortEv he
  cases hc : timelineCandidates text with
  | error msg =>
    rw [mkEvents_err now hc] at h
    exact Except.noConfusion h
  | ok cands =>
    rw [mkEvents_ok now hc] at h
    have hev : events = cands.map (fun t => ⟨t.1, t.2.1, t.2.2, statusOf now t.1⟩) :=
      (Except.ok.inj h).symm
    subst hev
    rcases List.mem_map.mp he2 with ⟨t, _, ht⟩
    rw [← ht]
    rfl

/-- Witness for claim_c6 at the instant 2025-01-01 on a one-event
text. -/
theorem claim_c6_witness :
    mkEvents ⟨⟨2025, 1, 1⟩, 0⟩ "Signed on 5 May 2020." =
      .ok [⟨⟨2020, 5, 5⟩, "5 May 2020", "Signed on .", "✅ Completed"⟩] ∧
    List.Chain' (fun a b => dateLe a.date b.date)
      (isortEv [⟨⟨2020, 5, 5⟩, "5 May 2020", "Signed on .", "✅ Completed"⟩]) :=
  ⟨by decide,
   (claim_c6 ⟨⟨2025, 1, 1⟩, 0⟩ "Signed on 5 May 2020."
     [⟨⟨2020, 5, 5⟩, "5 May 2020", "Signed on .", "✅ Completed"⟩] (by decide)).2.1⟩

/-- C7 (code bug): the extractors do NOT all return normally on every
input.  On "Hearing in March 0000." the timeline date regex matches
"March 0000"; every format of the parse loop fails (that loop has a
try/except, so the ValueError that the "%B %Y" parse of a 0000 year
raises is absorbed there); the month-year fallback re.match then
succeeds, and the dt.strptime reparse at src/main.py line 271 —
outside any try/except — raises an uncaught ValueError because
datetime rejects year 0.  generate_case_timeline therefore raises
instead of returning an empty/sentinel result.  The conjuncts exhibit
the successful fallback match, the rejected reparse of the constructed
"15 March 0000", and the escaping error at every build instant, while
the date and case-number extractors keep the empty/zero contract. -/
theorem claim_c7_bug :
    matchMonthYear "March 0000".toList = some ("March".toList, "0000".toList) ∧
    strptime fmt_d_B_Y "15 March 0000".toList = none ∧
    timelineCandidates "Hearing in March 0000." = .error "ValueError: year 0 is out of range" ∧
    (∀ now : DateTime,
      generate_case_timeline now "Hearing in March 0000." =
        .error "ValueError: year 0 is out of range") ∧
    (∀ now : DateTime,
      extract_future_dates now "Hearing in March 0000." = ([], 0) ∧
      extract_case_numbers "Hearing in March 0000." = ([], 0)) := by
  refine ⟨by decide, by decide, by decide, ?_, ?_⟩
  · intro now
    have ht : timelineCandidates "Hearing in March 0000." =
        .error "ValueError: year 0 is out of range" := by decide
    exact generate_case_timeline_err (mkEvents_err now ht)
  · intro now
    have hc : minerCandidates "Hearing in March 0000." = [] := by decide
    have hf : futureStrings now "Hearing in March 0000." = [] := by
      rw [futureStrings, hc]
      rfl
    refine ⟨?_, by decide⟩
    rw [extract_future_dates, hf]
    rfl

/-- C8 (confirmed): with no brace-delimited span in the capability
response, extract_structured_summary returns the error-marker object
rather than failing; and on the prose-wrapped payload it isolates the
span from the first opening to the last closing brace and returns the
parsed object. -/
theorem claim_c8 :
    (∀ resp : String, reSearch braceRe resp.toList = none →
      extract_structured_summary resp = .ok (.obj [("error", Json.str "No structured JSON found")])) ∧
    extract_structured_summary "Here is the data: \x7b\"Case_Name\": \"X\"\x7d — hope this helps" =
      .ok (.obj [("Case_Name", Json.str "X")]) := by
  constructor
  · intro resp h
    rw [extract_structured_summary, h]
  · rfl

/-- Witness for the hypothesis-bearing half of claim_c8. -/
theorem claim_c8_witness :
    reSearch braceRe "plain prose with no braces at all".toList = none ∧
    extract_structured_summary "plain prose with no braces at all" =
      .ok (.obj [("error", Json.str "No structured JSON found")]) :=
  ⟨by decide, claim_c8.1 "plain prose with no braces at all" (by decide)⟩

/-- C9 (as stated, counterexample): when the summarization capability
fails on the first document of a two-document batch, the request
returns that HTTPException unchanged: the second document contributes
no DocumentResult to the caller (the result carries no results at
all), and the error detail names neither document filename — so
neither disjunct of the claim holds. -/
theorem claim_c9_counterexample :
    upload_and_summarize ⟨⟨2025, 1, 1⟩, 0⟩
        (fun _ => .ok "Case text")
        (fun _ => .error ⟨500, "Gemini summarization failed: quota exceeded"⟩)
        (fun _ => .ok "irrelevant")
        [⟨"alpha.pdf"⟩, ⟨"beta.pdf"⟩] =
      .error (.http ⟨500, "Gemini summarization failed: quota exceeded"⟩) ∧
    strContains "Gemini summarization failed: quota exceeded" "alpha.pdf" = false ∧
    strContains "Gemini summarization failed: quota exceeded" "beta.pdf" = false := by
  refine ⟨rfl, by decide, by decide⟩

/-- C9 (amended): a capability failure is fatal for the whole batch,
not just for the failing document: if summarization fails on the first
document with non-empty text, upload_and_summarize returns exactly
that error — which carries whatever the stage put in its detail but no
filename — and no DocumentResult, not even of later documents, reaches
the caller. -/
theorem claim_c9_amended (now : DateTime) (e : HTTPException)
    (gen : String → Except HTTPException String) (f : UpFile) (files : List UpFile) :
    upload_and_summarize now (fun _ => .ok "Case text") (fun _ => .error e) gen (f :: files) =
      .error (.http e) := by
  rfl

/-- C10 (confirmed): a date with an uppercase ordinal suffix is matched
by the case-insensitive date pattern, but the ordinal-stripping
substitution recognizes only lowercase suffixes, so the unstripped
string fails every parse format and the date is silently dropped at
every invocation instant. -/
theorem claim_c10 :
    (reFindAll minerDateRe "The hearing is on 21ST October 2025.".toList).map List.asString = ["21ST October 2025"] ∧
    (∀ suf ∈ ["ST", "ND", "RD", "TH"],
      ordSub ("21" ++ suf ++ " October 2025").toList = ("21" ++ suf ++ " October 2025").toList ∧
      minerProcess ("21" ++ suf ++ " October 2025").toList = none) ∧
    minerCandidates "The hearing is on 21ST October 2025." = [] ∧
    ∀ now : DateTime, extract_future_dates now "The hearing is on 21ST October 2025." = ([], 0) := by
  refine ⟨by decide, by decide, by decide, ?_⟩
  intro now
  have hc : minerCandidates "The hearing is on 21ST October 2025." = [] := by decide
  have hf : futureStrings now "The hearing is on 21ST October 2025." = [] := by
    rw [futureStrings, hc]
    rfl
  rw [extract_future_dates, hf]
  rfl
